import Mathlib

/-!
Verification development for the streaming text-to-speech session client
(`emotional_dialogue_game.py`).  The Python source is shallowly embedded:
bytes are `Nat` values below 256, Python `str` fragments are Lean `String`s,
the asyncio queue is a list of queue items, and the two asynchronous loops
(`send_text_stream`, `receive_audio`) are translated into structural
recursions over the list of fragments / inbound messages.
-/

namespace WsTts

/-! ### Base64 (Python `base64.b64encode` / `base64.b64decode`)

Bytes and characters are `Nat`s (character = ASCII code).  `b64Char` maps a
sextet value to its alphabet character; 61 is the ASCII code of the padding
character. -/

def b64Char (v : Nat) : Nat :=
  if v < 26 then 65 + v
  else if v < 52 then 97 + (v - 26)
  else if v < 62 then 48 + (v - 52)
  else if v = 62 then 43
  else 47

def b64CharDec (c : Nat) : Option Nat :=
  if 65 ≤ c ∧ c ≤ 90 then some (c - 65)
  else if 97 ≤ c ∧ c ≤ 122 then some (c - 97 + 26)
  else if 48 ≤ c ∧ c ≤ 57 then some (c - 48 + 52)
  else if c = 43 then some 62
  else if c = 47 then some 63
  else none

def b64Encode : List Nat → List Nat
  | [] => []
  | [a] => [b64Char (a / 4), b64Char (a % 4 * 16), 61, 61]
  | [a, b] => [b64Char (a / 4), b64Char (a % 4 * 16 + b / 16), b64Char (b % 16 * 4), 61]
  | a :: b :: c :: rest =>
    b64Char (a / 4) :: b64Char (a % 4 * 16 + b / 16) ::
      b64Char (b % 16 * 4 + c / 64) :: b64Char (c % 64) :: b64Encode rest

def b64Decode : List Nat → Option (List Nat)
  | c0 :: c1 :: c2 :: c3 :: rest =>
    if c2 = 61 ∧ c3 = 61 ∧ rest = [] then
      match b64CharDec c0, b64CharDec c1 with
      | some s0, some s1 => some [s0 * 4 + s1 / 16]
      | _, _ => none
    else if c3 = 61 ∧ rest = [] then
      match b64CharDec c0, b64CharDec c1, b64CharDec c2 with
      | some s0, some s1, some s2 => some [s0 * 4 + s1 / 16, s1 % 16 * 16 + s2 / 4]
      | _, _, _ => none
    else
      match b64CharDec c0, b64CharDec c1, b64CharDec c2, b64CharDec c3, b64Decode rest with
      | some s0, some s1, some s2, some s3, some bs =>
        some ((s0 * 4 + s1 / 16) :: (s1 % 16 * 16 + s2 / 4) :: (s2 % 4 * 64 + s3) :: bs)
      | _, _, _, _, _ => none
  | [] => some []
  | _ => none

theorem b64CharDec_b64Char : ∀ v : Nat, v < 64 → b64CharDec (b64Char v) = some v := by
  decide

theorem b64Char_ne_61 (v : Nat) : b64Char v ≠ 61 := by
  simp only [b64Char]
  split <;> try omega
  split <;> try omega
  split <;> try omega
  split <;> omega

theorem b64_roundtrip : ∀ bs : List Nat, (∀ b ∈ bs, b < 256) →
    b64Decode (b64Encode bs) = some bs
  | [], _ => rfl
  | [a], h => by
    have ha : a < 256 := h a (by simp)
    simp only [b64Encode, b64Decode]
    rw [if_pos (by simp), b64CharDec_b64Char (a / 4) (by omega),
      b64CharDec_b64Char (a % 4 * 16) (by omega)]
    simp only [Option.some.injEq, List.cons.injEq, and_true]
    omega
  | [a, b], h => by
    have ha : a < 256 := h a (by simp)
    have hb : b < 256 := h b (by simp)
    simp only [b64Encode, b64Decode]
    rw [if_neg (fun hx => b64Char_ne_61 (b % 16 * 4) hx.1), if_pos (by simp),
      b64CharDec_b64Char (a / 4) (by omega),
      b64CharDec_b64Char (a % 4 * 16 + b / 16) (by omega),
      b64CharDec_b64Char (b % 16 * 4) (by omega)]
    simp only [Option.some.injEq, List.cons.injEq, and_true]
    omega
  | a :: b :: c :: rest, h => by
    have ha : a < 256 := h a (by simp)
    have hb : b < 256 := h b (by simp)
    have hc : c < 256 := h c (by simp)
    have ih := b64_roundtrip rest (fun x hx => h x (by simp [hx]))
    simp only [b64Encode, b64Decode]
    rw [if_neg (fun hx => b64Char_ne_61 (b % 16 * 4 + c / 64) hx.1),
      if_neg (fun hx => b64Char_ne_61 (c % 64) hx.1),
      b64CharDec_b64Char (a / 4) (by omega),
      b64CharDec_b64Char (a % 4 * 16 + b / 16) (by omega),
      b64CharDec_b64Char (b % 16 * 4 + c / 64) (by omega),
      b64CharDec_b64Char (c % 64) (by omega), ih]
    simp only [Option.some.injEq, List.cons.injEq, and_true]
    omega

/-! ### UTF-8 (Python `str.encode('utf-8')` / `bytes.decode('utf-8')`)

Code points are `Nat`s; a valid scalar value is below `0x110000` and not a
surrogate (`0xD800`–`0xDFFF`). -/

def utf8EncodeChar (u : Nat) : List Nat :=
  if u < 0x80 then [u]
  else if u < 0x800 then [0xC0 + u / 64, 0x80 + u % 64]
  else if u < 0x10000 then [0xE0 + u / 4096, 0x80 + u / 64 % 64, 0x80 + u % 64]
  else [0xF0 + u / 262144, 0x80 + u / 4096 % 64, 0x80 + u / 64 % 64, 0x80 + u % 64]

def utf8Encode : List Nat → List Nat
  | [] => []
  | u :: us => utf8EncodeChar u ++ utf8Encode us

/-- A UTF-8 continuation byte. -/
def isCont (b : Nat) : Bool := decide (0x80 ≤ b) && decide (b < 0xC0)

def utf8DecodeOne (l : List Nat) : Option (Nat × List Nat) :=
  match l with
  | [] => none
  | b0 :: rest =>
    if b0 < 0x80 then some (b0, rest)
    else if b0 < 0xC2 then none
    else if b0 < 0xE0 then
      match rest.head? with
      | some b1 =>
        if isCont b1 then some ((b0 - 0xC0) * 64 + (b1 - 0x80), rest.tail) else none
      | none => none
    else if b0 < 0xF0 then
      match rest.head?, rest.tail.head? with
      | some b1, some b2 =>
        if isCont b1 && isCont b2 then
          if 0x800 ≤ (b0 - 0xE0) * 4096 + (b1 - 0x80) * 64 + (b2 - 0x80) ∧
              ¬(0xD800 ≤ (b0 - 0xE0) * 4096 + (b1 - 0x80) * 64 + (b2 - 0x80) ∧
                (b0 - 0xE0) * 4096 + (b1 - 0x80) * 64 + (b2 - 0x80) < 0xE000) then
            some ((b0 - 0xE0) * 4096 + (b1 - 0x80) * 64 + (b2 - 0x80), rest.tail.tail)
          else none
        else none
      | _, _ => none
    else if b0 < 0xF5 then
      match rest.head?, rest.tail.head?, rest.tail.tail.head? with
      | some b1, some b2, some b3 =>
        if isCont b1 && isCont b2 && isCont b3 then
          if 0x10000 ≤ (b0 - 0xF0) * 262144 + (b1 - 0x80) * 4096 + (b2 - 0x80) * 64 +
                (b3 - 0x80) ∧
              (b0 - 0xF0) * 262144 + (b1 - 0x80) * 4096 + (b2 - 0x80) * 64 +
                (b3 - 0x80) < 0x110000 then
            some ((b0 - 0xF0) * 262144 + (b1 - 0x80) * 4096 + (b2 - 0x80) * 64 + (b3 - 0x80),
              rest.tail.tail.tail)
          else none
        else none
      | _, _, _ => none
    else none

theorem utf8DecodeOne_length {l : List Nat} {u : Nat} {r : List Nat}
    (h : utf8DecodeOne l = some (u, r)) : r.length < l.length := by
  match l with
  | [] => simp [utf8DecodeOne] at h
  | b0 :: rest =>
    have htail : rest.tail.length ≤ rest.length := by simp [List.length_tail]
    have htail2 : rest.tail.tail.length ≤ rest.length := by
      calc rest.tail.tail.length ≤ rest.tail.length := by simp [List.length_tail]
        _ ≤ rest.length := htail
    have htail3 : rest.tail.tail.tail.length ≤ rest.length := by
      calc rest.tail.tail.tail.length ≤ rest.tail.tail.length := by simp [List.length_tail]
        _ ≤ rest.length := htail2
    simp only [utf8DecodeOne] at h
    repeat' split at h
    all_goals simp only [Option.some.injEq, Prod.mk.injEq, reduceCtorEq] at h
    all_goals obtain ⟨rfl, rfl⟩ := h
    all_goals simp only [List.length_cons]
    all_goals omega

def utf8Decode (l : List Nat) : Option (List Nat) :=
  if l.isEmpty then some []
  else
    match h : utf8DecodeOne l with
    | some (u, r) =>
      match utf8Decode r with
      | some us => some (u :: us)
      | none => none
    | none => none
termination_by l.length
decreasing_by exact utf8DecodeOne_length h

theorem utf8Decode_nil : utf8Decode [] = some [] := by
  rw [utf8Decode]
  rfl

/-- One unfolding step of `utf8Decode` when the head scalar is decodable. -/
theorem utf8Decode_step {l : List Nat} {u : Nat} {r : List Nat}
    (h : utf8DecodeOne l = some (u, r)) (hne : l ≠ []) :
    utf8Decode l =
      match utf8Decode r with
      | some us => some (u :: us)
      | none => none := by
  rw [utf8Decode, if_neg (by simpa [List.isEmpty_iff] using hne)]
  split
  next u' r' heq =>
    rw [h] at heq
    obtain ⟨rfl, rfl⟩ : u = u' ∧ r = r' := by
      simpa [Option.some.injEq, Prod.mk.injEq] using heq
    rfl
  next heq =>
    rw [h] at heq
    simp at heq

/-- Valid Unicode scalar value (what a Lean `Char` / Python `str` code point is). -/
def ValidCp (u : Nat) : Prop := u < 0xD800 ∨ (0xE000 ≤ u ∧ u < 0x110000)

theorem utf8EncodeChar_bytes_lt (u : Nat) (hu : u < 0x110000) :
    ∀ b ∈ utf8EncodeChar u, b < 256 := by
  intro b hb
  by_cases h1 : u < 0x80
  · simp [utf8EncodeChar, h1] at hb
    omega
  · by_cases h2 : u < 0x800
    · simp [utf8EncodeChar, h1, h2] at hb
      rcases hb with rfl | rfl <;> omega
    · by_cases h3 : u < 0x10000
      · simp [utf8EncodeChar, h1, h2, h3] at hb
        rcases hb with rfl | rfl | rfl <;> omega
      · simp [utf8EncodeChar, h1, h2, h3] at hb
        rcases hb with rfl | rfl | rfl | rfl <;> omega

theorem utf8Encode_bytes_lt : ∀ us : List Nat, (∀ u ∈ us, u < 0x110000) →
    ∀ b ∈ utf8Encode us, b < 256
  | [], _ => by simp [utf8Encode]
  | u :: us, h => by
    intro b hb
    simp only [utf8Encode, List.mem_append] at hb
    rcases hb with hb | hb
    · exact utf8EncodeChar_bytes_lt u (h u (by simp)) b hb
    · exact utf8Encode_bytes_lt us (fun x hx => h x (by simp [hx])) b hb

/-- Decoding one scalar from a UTF-8-encoded value at the front of a byte
stream recovers the value and the remainder. -/
theorem utf8DecodeOne_encodeChar (u : Nat) (hu : ValidCp u) (bs : List Nat) :
    utf8DecodeOne (utf8EncodeChar u ++ bs) = some (u, bs) := by
  have h110 : u < 0x110000 := by rcases hu with h | h <;> omega
  by_cases h1 : u < 0x80
  · have e : utf8EncodeChar u ++ bs = u :: bs := by simp [utf8EncodeChar, h1]
    rw [e, utf8DecodeOne, if_pos h1]
  · by_cases h2 : u < 0x800
    · have e : utf8EncodeChar u ++ bs = (0xC0 + u / 64) :: (0x80 + u % 64) :: bs := by
        simp [utf8EncodeChar, h1, h2]
      have hA : ¬(0xC0 + u / 64 < 0x80) := by omega
      have hB : ¬(0xC0 + u / 64 < 0xC2) := by omega
      have hC : 0xC0 + u / 64 < 0xE0 := by omega
      have hcont : isCont (0x80 + u % 64) = true := by
        simp only [isCont, Bool.and_eq_true, decide_eq_true_eq]
        omega
      rw [e, utf8DecodeOne, if_neg hA, if_neg hB, if_pos hC]
      simp only [List.head?_cons, List.tail_cons]
      rw [if_pos hcont]
      have hval : (0xC0 + u / 64 - 0xC0) * 64 + (0x80 + u % 64 - 0x80) = u := by omega
      rw [hval]
    · by_cases h3 : u < 0x10000
      · have e : utf8EncodeChar u ++ bs =
            (0xE0 + u / 4096) :: (0x80 + u / 64 % 64) :: (0x80 + u % 64) :: bs := by
          simp [utf8EncodeChar, h1, h2, h3]
        have hA : ¬(0xE0 + u / 4096 < 0x80) := by omega
        have hB : ¬(0xE0 + u / 4096 < 0xC2) := by omega
        have hC : ¬(0xE0 + u / 4096 < 0xE0) := by omega
        have hD : 0xE0 + u / 4096 < 0xF0 := by omega
        have hcont : (isCont (0x80 + u / 64 % 64) && isCont (0x80 + u % 64)) = true := by
          simp only [isCont, Bool.and_eq_true, decide_eq_true_eq]
          omega
        have hdd1 : u / 64 / 64 = u / 4096 := by rw [Nat.div_div_eq_div_mul]
        rw [e, utf8DecodeOne, if_neg hA, if_neg hB, if_neg hC, if_pos hD]
        simp only [List.head?_cons, List.tail_cons]
        rw [if_pos hcont]
        have hval : (0xE0 + u / 4096 - 0xE0) * 4096 + (0x80 + u / 64 % 64 - 0x80) * 64 +
            (0x80 + u % 64 - 0x80) = u := by omega
        rw [hval]
        rw [if_pos (by rcases hu with h | h <;> omega)]
      · have e : utf8EncodeChar u ++ bs = (0xF0 + u / 262144) :: (0x80 + u / 4096 % 64) ::
            (0x80 + u / 64 % 64) :: (0x80 + u % 64) :: bs := by
          simp [utf8EncodeChar, h1, h2, h3]
        have hA : ¬(0xF0 + u / 262144 < 0x80) := by omega
        have hB : ¬(0xF0 + u / 262144 < 0xC2) := by omega
        have hC : ¬(0xF0 + u / 262144 < 0xE0) := by omega
        have hD : ¬(0xF0 + u / 262144 < 0xF0) := by omega
        have hE : 0xF0 + u / 262144 < 0xF5 := by omega
        have hcont : (isCont (0x80 + u / 4096 % 64) && isCont (0x80 + u / 64 % 64) &&
            isCont (0x80 + u % 64)) = true := by
          simp only [isCont, Bool.and_eq_true, decide_eq_true_eq]
          omega
        have hdd1 : u / 64 / 64 = u / 4096 := by rw [Nat.div_div_eq_div_mul]
        have hdd2 : u / 4096 / 64 = u / 262144 := by rw [Nat.div_div_eq_div_mul]
        rw [e, utf8DecodeOne, if_neg hA, if_neg hB, if_neg hC, if_neg hD, if_pos hE]
        simp only [List.head?_cons, List.tail_cons]
        rw [if_pos hcont]
        have hval : (0xF0 + u / 262144 - 0xF0) * 262144 + (0x80 + u / 4096 % 64 - 0x80) * 4096 +
            (0x80 + u / 64 % 64 - 0x80) * 64 + (0x80 + u % 64 - 0x80) = u := by omega
        rw [hval]
        rw [if_pos (by omega)]

theorem utf8EncodeChar_ne_nil (u : Nat) : utf8EncodeChar u ≠ [] := by
  simp only [utf8EncodeChar]
  split <;> try split <;> try split
  all_goals simp

theorem utf8_roundtrip : ∀ us : List Nat, (∀ u ∈ us, ValidCp u) →
    utf8Decode (utf8Encode us) = some us
  | [], _ => utf8Decode_nil
  | u :: us, h => by
    have ih := utf8_roundtrip us (fun x hx => h x (by simp [hx]))
    have hne : utf8EncodeChar u ++ utf8Encode us ≠ [] := by
      simp [utf8EncodeChar_ne_nil u]
    rw [utf8Encode]
    rw [utf8Decode_step (utf8DecodeOne_encodeChar u (h u (by simp)) (utf8Encode us)) hne, ih]

/-! ### Fragment text codec

`emotional_dialogue_game.py` line 140 encodes an outbound text chunk as
`base64.b64encode(chunk_to_send.encode('utf-8')).decode('utf-8')`.
A fragment is a `String`; its code points are `s.data.map Char.toNat`. -/

def encodeFragment (s : String) : List Nat :=
  b64Encode (utf8Encode (s.data.map Char.toNat))

/-- Modelled from the spec: the repository never decodes the outbound text
payload itself (the TTS server does); §4.1/§8 specify the inverse direction
as base64 decode followed by UTF-8 decode of the text payload. -/
def decodeTextPayload (cs : List Nat) : Option (List Nat) :=
  match b64Decode cs with
  | some bs => utf8Decode bs
  | none => none

theorem char_validCp (c : Char) : ValidCp c.toNat := c.valid

/-! ### Outbound framing: `send_text_stream` (lines 95–181)

The Python loop keeps a `current_chunk` plus the not-yet-consumed iterator;
the pair `(current_chunk, iterator)` is represented as the single list
`current_chunk :: iterator`, and the lookahead test `next_chunk is None`
becomes `rest = []`.  The `parameter` block built from `self.tts_params`
(lines 147–159: voice `vcn`, `speed`, `volume`, `pitch`, plus the constant
`oral_level = "mid"` and raw/16000/1ch/16bit audio descriptor) is recorded
as an `Option TtsParams` on the frame. -/

/-- Python `str.strip()`: drop leading and trailing whitespace.  (Lean's
own `String.trim` is defined by position-based well-founded recursion, which
the kernel cannot evaluate; this structurally recursive equivalent over the
character list is used so concrete runs reduce.) -/
def pyStrip (s : String) : String :=
  String.mk (((s.data.dropWhile Char.isWhitespace).reverse.dropWhile
    Char.isWhitespace).reverse)

structure TtsParams where
  voice : String
  speed : Nat
  volume : Nat
  pitch : Nat
deriving Repr, DecidableEq

/-- One outbound frame: `status` is the value written to both
`header.status` and `payload.text.status`; `text` is the trimmed chunk
(`chunk_to_send`); `textB64` is the wire form of line 140. -/
structure OutFrame where
  status : Nat
  seq : Nat
  text : String
  textB64 : List Nat
  parameter : Option TtsParams
deriving Repr, DecidableEq

def sendLoop (p : TtsParams) (is_first : Bool) (seq : Nat) (fullText : String) :
    List String → List OutFrame × String
  | [] => ([], fullText)
  | cur :: rest =>
    let chunk := pyStrip cur
    if chunk = "" then
      sendLoop p is_first seq fullText rest
    else
      let status : Nat :=
        if is_first && rest.isEmpty then 2
        else if is_first then 0
        else if rest.isEmpty then 2
        else 1
      let frame : OutFrame :=
        { status := status, seq := seq, text := chunk,
          textB64 := encodeFragment chunk,
          parameter := if is_first then some p else none }
      let r := sendLoop p false (seq + 1) (fullText ++ chunk) rest
      (frame :: r.1, r.2)

/-- `send_text_stream`: returns the frames written to the socket and the
returned `full_text` (the recorded assistant message). -/
def send_text_stream (p : TtsParams) (frags : List String) : List OutFrame × String :=
  sendLoop p true 0 "" frags

/-- The trimmed fragments that survive the emptiness filter (lines 112–115). -/
def nonEmptyTrims (frags : List String) : List String :=
  (frags.map pyStrip).filter (fun s => s != "")

/-- In-order concatenation of a list of strings. -/
def concatAll : List String → String
  | [] => ""
  | s :: rest => s ++ concatAll rest

theorem sendLoop_cons_skip (p : TtsParams) (isf : Bool) (s : Nat) (ft : String)
    (cur : String) (rest : List String) (h : pyStrip cur = "") :
    sendLoop p isf s ft (cur :: rest) = sendLoop p isf s ft rest := by
  simp [sendLoop, h]

theorem sendLoop_cons_emit (p : TtsParams) (isf : Bool) (s : Nat) (ft : String)
    (cur : String) (rest : List String) (h : ¬pyStrip cur = "") :
    sendLoop p isf s ft (cur :: rest) =
      (({ status := if isf && rest.isEmpty then 2 else if isf then 0
            else if rest.isEmpty then 2 else 1,
          seq := s, text := pyStrip cur, textB64 := encodeFragment (pyStrip cur),
          parameter := if isf then some p else none } : OutFrame) ::
          (sendLoop p false (s + 1) (ft ++ pyStrip cur) rest).1,
        (sendLoop p false (s + 1) (ft ++ pyStrip cur) rest).2) := by
  simp [sendLoop, h]

theorem nonEmptyTrims_nil : nonEmptyTrims [] = [] := rfl

theorem nonEmptyTrims_cons_skip (cur : String) (rest : List String) (h : pyStrip cur = "") :
    nonEmptyTrims (cur :: rest) = nonEmptyTrims rest := by
  simp [nonEmptyTrims, List.filter_cons, h]

theorem nonEmptyTrims_cons_emit (cur : String) (rest : List String) (h : ¬pyStrip cur = "") :
    nonEmptyTrims (cur :: rest) = pyStrip cur :: nonEmptyTrims rest := by
  simp [nonEmptyTrims, List.filter_cons, h]

theorem sendLoop_fullText : ∀ (frags : List String) (p : TtsParams) (isf : Bool) (s : Nat)
    (ft : String), (sendLoop p isf s ft frags).2 = ft ++ concatAll (nonEmptyTrims frags)
  | [], _, _, _, ft => by simp [sendLoop, nonEmptyTrims, concatAll]
  | cur :: rest, p, isf, s, ft => by
    by_cases h : pyStrip cur = ""
    · rw [sendLoop_cons_skip p isf s ft cur rest h, nonEmptyTrims_cons_skip cur rest h,
        sendLoop_fullText rest p isf s ft]
    · rw [sendLoop_cons_emit p isf s ft cur rest h, nonEmptyTrims_cons_emit cur rest h]
      simp only [concatAll]
      rw [sendLoop_fullText rest p false (s + 1) (ft ++ pyStrip cur), String.append_assoc]

theorem sendLoop_seqs : ∀ (frags : List String) (p : TtsParams) (isf : Bool) (s : Nat)
    (ft : String), (sendLoop p isf s ft frags).1.map OutFrame.seq =
      List.range' s (nonEmptyTrims frags).length
  | [], _, _, _, ft => by simp [sendLoop, nonEmptyTrims]
  | cur :: rest, p, isf, s, ft => by
    by_cases h : pyStrip cur = ""
    · rw [sendLoop_cons_skip p isf s ft cur rest h, nonEmptyTrims_cons_skip cur rest h,
        sendLoop_seqs rest p isf s ft]
    · rw [sendLoop_cons_emit p isf s ft cur rest h, nonEmptyTrims_cons_emit cur rest h]
      simp only [List.map_cons, List.length_cons, List.range']
      rw [sendLoop_seqs rest p false (s + 1) (ft ++ pyStrip cur)]

theorem sendLoop_texts : ∀ (frags : List String) (p : TtsParams) (isf : Bool) (s : Nat)
    (ft : String), (sendLoop p isf s ft frags).1.map OutFrame.text = nonEmptyTrims frags
  | [], _, _, _, ft => by simp [sendLoop, nonEmptyTrims]
  | cur :: rest, p, isf, s, ft => by
    by_cases h : pyStrip cur = ""
    · rw [sendLoop_cons_skip p isf s ft cur rest h, nonEmptyTrims_cons_skip cur rest h,
        sendLoop_texts rest p isf s ft]
    · rw [sendLoop_cons_emit p isf s ft cur rest h, nonEmptyTrims_cons_emit cur rest h]
      simp only [List.map_cons]
      rw [sendLoop_texts rest p false (s + 1) (ft ++ pyStrip cur)]

/-- After the first frame has been emitted (`is_first = False`), no later
frame carries the parameter block. -/
theorem sendLoop_params_false : ∀ (frags : List String) (p : TtsParams) (s : Nat)
    (ft : String) (f : OutFrame), f ∈ (sendLoop p false s ft frags).1 → f.parameter = none
  | [], _, _, ft, f => by simp [sendLoop]
  | cur :: rest, p, s, ft, f => by
    by_cases h : pyStrip cur = ""
    · rw [sendLoop_cons_skip p false s ft cur rest h]
      exact sendLoop_params_false rest p s ft f
    · rw [sendLoop_cons_emit p false s ft cur rest h]
      intro hf
      rcases List.mem_cons.mp hf with rfl | hf
      · simp
      · exact sendLoop_params_false rest p (s + 1) (ft ++ pyStrip cur) f hf

/-- Specification-side shape of the per-frame parameter blocks of a turn:
the first frame carries the block, every later frame carries none. -/
def paramsList : Nat → TtsParams → List (Option TtsParams)
  | 0, _ => []
  | n + 1, p => some p :: List.replicate n none

theorem sendLoop_params_false_map : ∀ (frags : List String) (p : TtsParams) (s : Nat)
    (ft : String), (sendLoop p false s ft frags).1.map OutFrame.parameter =
      List.replicate (sendLoop p false s ft frags).1.length none
  | [], _, _, ft => by simp [sendLoop]
  | cur :: rest, p, s, ft => by
    by_cases h : pyStrip cur = ""
    · rw [sendLoop_cons_skip p false s ft cur rest h,
        sendLoop_params_false_map rest p s ft]
    · rw [sendLoop_cons_emit p false s ft cur rest h]
      simp only [List.map_cons, List.length_cons, List.replicate_succ, List.cons.injEq]
      exact ⟨rfl, sendLoop_params_false_map rest p (s + 1) (ft ++ pyStrip cur)⟩

theorem sendLoop_params_first_map : ∀ (frags : List String) (p : TtsParams) (s : Nat)
    (ft : String), (sendLoop p true s ft frags).1.map OutFrame.parameter =
      paramsList (sendLoop p true s ft frags).1.length p
  | [], _, _, ft => by simp [sendLoop, paramsList]
  | cur :: rest, p, s, ft => by
    by_cases h : pyStrip cur = ""
    · rw [sendLoop_cons_skip p true s ft cur rest h,
        sendLoop_params_first_map rest p s ft]
    · rw [sendLoop_cons_emit p true s ft cur rest h]
      simp only [List.map_cons, List.length_cons, paramsList, List.cons.injEq]
      constructor
      · simp
      · have hlen := congrArg List.length
          (sendLoop_params_false_map rest p (s + 1) (ft ++ pyStrip cur))
        simp only [List.length_map, List.length_replicate] at hlen
        rw [sendLoop_params_false_map rest p (s + 1) (ft ++ pyStrip cur)]

/-- Whether the final fragment of the stream is non-blank after trimming. -/
def lastNonBlank (frags : List String) : Bool :=
  match frags.getLast? with
  | some l => pyStrip l != ""
  | none => false

theorem sendLoop_one_last : ∀ (frags : List String) (p : TtsParams) (isf : Bool) (s : Nat)
    (ft : String), lastNonBlank frags = true →
    (sendLoop p isf s ft frags).1.countP (fun f => f.status == 2) = 1
  | [], _, _, _, _, hl => by simp [lastNonBlank] at hl
  | [cur], p, isf, s, ft, hl => by
    have h : ¬pyStrip cur = "" := by simpa [lastNonBlank] using hl
    rw [sendLoop_cons_emit p isf s ft cur [] h]
    cases isf <;> simp [sendLoop, List.countP_cons]
  | cur :: next :: rest, p, isf, s, ft, hl => by
    have hl' : lastNonBlank (next :: rest) = true := by
      simpa [lastNonBlank, List.getLast?_cons_cons] using hl
    by_cases h : pyStrip cur = ""
    · rw [sendLoop_cons_skip p isf s ft cur (next :: rest) h]
      exact sendLoop_one_last (next :: rest) p isf s ft hl'
    · rw [sendLoop_cons_emit p isf s ft cur (next :: rest) h]
      have hcount := sendLoop_one_last (next :: rest) p false (s + 1) (ft ++ pyStrip cur) hl'
      cases isf <;> simp [List.countP_cons, hcount]

/-! ### `send_text_stream` under a mid-send connection loss (lines 162–163, 176–178)

`ws.send` may raise `ConnectionClosed`; the handler at lines 176–178 catches
it and returns the `full_text` accumulated so far (the current chunk is not
appended, since `full_text += chunk_to_send` runs only after a successful
send).  `failAt = some k` means the k-th `ws.send` call (0-based) raises.
The result is the returned text plus whether the connection was lost. -/
def sendLoopConn (failAt : Option Nat) (sent : Nat) (fullText : String) :
    List String → String × Bool
  | [] => (fullText, false)
  | cur :: rest =>
    let chunk := pyStrip cur
    if chunk = "" then sendLoopConn failAt sent fullText rest
    else if failAt = some sent then (fullText, true)
    else sendLoopConn failAt (sent + 1) (fullText ++ chunk) rest

/-! ### Inbound messages: `receive_audio` (lines 52–92)

An inbound message is either non-JSON text (`json.loads` raises
`JSONDecodeError`) or a parsed JSON object, of which the loop reads
`header.code`, `header.message`, `header.status` and
`payload.audio.audio` through defaulted `.get` chains. -/

structure Header where
  code : Option Int := none
  message : Option String := none
  status : Option Int := none
deriving Repr, DecidableEq

structure AudioObj where
  audio : Option String := none
deriving Repr, DecidableEq

structure Payload where
  audio : Option AudioObj := none
deriving Repr, DecidableEq

structure InMsg where
  header : Option Header := none
  payload : Option Payload := none
deriving Repr, DecidableEq

/-- `data.get('header', {}).get('code')`. -/
def InMsg.headerCode (m : InMsg) : Option Int := (m.header.getD {}).code

/-- `data.get('header', {}).get('status')`. -/
def InMsg.headerStatus (m : InMsg) : Option Int := (m.header.getD {}).status

/-- `data.get('payload', {})` followed by `.get('audio', {}).get('audio')`.
(The `if payload:` truthiness guard at line 69 only skips the lookup when the
payload dict is absent or empty; a missing/empty lookup result is `none`
either way, so the guard is absorbed into the defaulted chain.) -/
def InMsg.audioB64 (m : InMsg) : Option String :=
  ((m.payload.getD {}).audio.getD {}).audio

inductive RawMsg where
  | nonJson (raw : String)
  | json (m : InMsg)
deriving Repr, DecidableEq

/-- An item put on `self.audio_queue`: decoded PCM bytes, or the `None`
sentinel that ends playback. -/
inductive QItem where
  | audio (bytes : List Nat)
  | sentinel
deriving Repr, DecidableEq

/-- Base64-decode a Python `str` (its code points as ASCII codes). -/
def b64DecodeStr (s : String) : Option (List Nat) :=
  b64Decode (s.data.map Char.toNat)

/-- The receive loop, by the sequence of inbound messages it reads; the
result is the sequence of items put on the audio queue.  Exhausting the
message list models the connection closing (the next `ws.recv` raises
`ConnectionClosed`, whose handler at lines 83–87 puts the `None` sentinel).
A non-JSON message raises `JSONDecodeError` out of the `while` loop to the
handler at lines 88–89, which logs and falls through: the loop terminates
and nothing is put.  A failing base64 decode of an audio payload raises to
the generic handler at lines 90–92, which puts the sentinel and ends the
loop. -/
def receive_audio : List RawMsg → List QItem
  | [] => [QItem.sentinel]
  | RawMsg.nonJson _ :: _ => []
  | RawMsg.json m :: rest =>
    if m.headerCode ≠ some 0 then receive_audio rest
    else
      match m.audioB64 with
      | some s =>
        if s = "" then
          if m.headerStatus = some 2 then [QItem.sentinel] else receive_audio rest
        else
          match b64DecodeStr s with
          | some bytes =>
            if m.headerStatus = some 2 then [QItem.audio bytes, QItem.sentinel]
            else QItem.audio bytes :: receive_audio rest
          | none => [QItem.sentinel]
      | none =>
        if m.headerStatus = some 2 then [QItem.sentinel] else receive_audio rest

/-! ### Playback: `_play_audio_sync` (lines 184–204)

The consumer busy-polls the queue and stops only at the `None` sentinel.
Over the finite list of delivered items it returns the chunks written to
the device, or `none` if the sentinel never arrives (the loop never
exits). -/
def play_audio_sync : List QItem → Option (List (List Nat))
  | [] => none
  | QItem.sentinel :: _ => some []
  | QItem.audio c :: rest =>
    match play_audio_sync rest with
    | some written => some (c :: written)
    | none => none

/-! ### The audio hand-off queue (line 35)

`self.audio_queue = asyncio.Queue()` — constructed with the default
`maxsize = 0`, which asyncio defines as infinite capacity; `put` then never
blocks and `Queue.full()` is never true. -/

def audioQueueMaxsize : Nat := 0

/-- `asyncio.Queue.full()`. -/
def queueFull (q : List QItem) : Bool :=
  decide (0 < audioQueueMaxsize) && decide (audioQueueMaxsize ≤ q.length)

/-- `asyncio.Queue.put` once it proceeds (it suspends only while `full()`). -/
def queuePut (q : List QItem) (x : QItem) : List QItem := q ++ [x]

/-! ### Teardown: `close` (lines 242–253)

`close()` is straight-line code with no exception handling: it awaits
`ws.close()` (if a connection exists), saves the audio, then stops and
closes the stream and terminates PyAudio.  A raising step therefore aborts
all later steps.  `closeRun hasWs fails` returns the steps that were
attempted, in order, where `fails s = true` means step `s` raises. -/

inductive TeardownStep where
  | wsClose
  | saveAudio
  | stopStream
  | closeStream
  | terminateAudio
deriving Repr, DecidableEq

def closeStepList (hasWs : Bool) : List TeardownStep :=
  (if hasWs then [TeardownStep.wsClose] else []) ++
    [TeardownStep.saveAudio, TeardownStep.stopStream, TeardownStep.closeStream,
      TeardownStep.terminateAudio]

def runSteps (fails : TeardownStep → Bool) : List TeardownStep → List TeardownStep
  | [] => []
  | s :: rest => if fails s then [s] else s :: runSteps fails rest

def closeRun (hasWs : Bool) (fails : TeardownStep → Bool) : List TeardownStep :=
  runSteps fails (closeStepList hasWs)

/-! ### One AI turn: `handle_ai_turn` (lines 388–435)

The `try` body runs `connect`, the playback task, `send_text_stream`, the
history append and the playback wait, then `confirm_session(session_id,
success=True)`; any exception escaping the body reaches the `except`, which
calls `confirm_session(session_id, success=False)`.  `send_text_stream`
catches `ConnectionClosed` internally and returns normally, so a mid-send
connection loss does not reach the `except` branch.  The result is the
`success` flag passed to `confirm_session` together with the text returned
by `send_text_stream`. -/
def handle_ai_turn (connectOk : Bool) (frags : List String) (failAt : Option Nat) :
    Bool × String :=
  if connectOk then (true, (sendLoopConn failAt 0 "" frags).1) else (false, "")

/-! ### Shared concrete inputs for scenarios and witnesses -/

/-- The voice-parameter block of `get_tts_websocket_url` (lines 257–269). -/
def sampleParams : TtsParams :=
  { voice := "x5_lingfeiyi_flow", speed := 50, volume := 50, pitch := 50 }

/-- A server-error message: `header.code = 5`. -/
def serverErr5Msg : InMsg :=
  { header := some { code := some 5, message := some "boom", status := none },
    payload := none }

/-- An audio message: `header.code = 0`, `payload.audio.audio = "AQI="`
(base64 of the PCM bytes 1, 2). -/
def audioAQIMsg : InMsg :=
  { header := some { code := some 0, message := none, status := none },
    payload := some { audio := some { audio := some "AQI=" } } }

/-- A stream-finished message: `header.code = 0`, `header.status = 2`. -/
def finishMsg : InMsg :=
  { header := some { code := some 0, message := none, status := some 2 },
    payload := none }

/-- A message carrying both an audio payload and `header.status = 2`. -/
def audioFinishMsg : InMsg :=
  { header := some { code := some 0, message := none, status := some 2 },
    payload := some { audio := some { audio := some "AQI=" } } }

/-- A message whose `header` object lacks the `code` field while carrying
both an audio payload and `header.status = 2`. -/
def noCodeMsg : InMsg :=
  { header := some { code := none, message := none, status := some 2 },
    payload := some { audio := some { audio := some "AQI=" } } }

/-- A message that does not disturb the receive loop: JSON, and it neither
ends the stream nor raises while decoding audio.  (Used to say "no prior
EndOfStream" about the traffic before an unexpected connection close.) -/
def cleanMsg : RawMsg → Bool
  | RawMsg.nonJson _ => false
  | RawMsg.json m =>
    if m.headerCode = some 0 then
      if m.headerStatus = some 2 then false
      else
        match m.audioB64 with
        | some s => if s = "" then true else (b64DecodeStr s).isSome
        | none => true
    else true

theorem receive_audio_clean : ∀ msgs : List RawMsg, (∀ r ∈ msgs, cleanMsg r = true) →
    ∃ chunks : List QItem, receive_audio msgs = chunks ++ [QItem.sentinel]
  | [], _ => ⟨[], rfl⟩
  | RawMsg.nonJson raw :: rest, h => by
    have := h (RawMsg.nonJson raw) (by simp)
    simp [cleanMsg] at this
  | RawMsg.json m :: rest, h => by
    have hm := h (RawMsg.json m) (by simp)
    have ih := receive_audio_clean rest (fun r hr => h r (by simp [hr]))
    obtain ⟨chunks, hchunks⟩ := ih
    by_cases hcode : m.headerCode ≠ some 0
    · rw [receive_audio, if_pos hcode]
      exact ⟨chunks, hchunks⟩
    · rw [receive_audio, if_neg hcode]
      rw [Decidable.not_not] at hcode
      rw [cleanMsg, if_pos hcode] at hm
      by_cases hst : m.headerStatus = some 2
      · rw [if_pos hst] at hm
        simp at hm
      · rw [if_neg hst] at hm
        match haud : m.audioB64 with
        | none =>
          simp only [haud, if_neg hst]
          exact ⟨chunks, hchunks⟩
        | some s =>
          simp only [haud] at hm
          by_cases hs : s = ""
          · simp only [haud, hs]
            rw [if_pos trivial, if_neg hst]
            exact ⟨chunks, hchunks⟩
          · rw [if_neg hs] at hm
            obtain ⟨bytes, hbytes⟩ := Option.isSome_iff_exists.mp hm
            simp only [haud]
            rw [if_neg hs]
            simp only [hbytes]
            rw [if_neg hst]
            exact ⟨QItem.audio bytes :: chunks, by simp [hchunks]⟩

theorem play_isSome_of_mem : ∀ q : List QItem, QItem.sentinel ∈ q →
    (play_audio_sync q).isSome = true
  | [], h => by simp at h
  | QItem.sentinel :: rest, _ => by simp [play_audio_sync]
  | QItem.audio c :: rest, h => by
    have hrest : QItem.sentinel ∈ rest := by simpa using h
    have := play_isSome_of_mem rest hrest
    rw [play_audio_sync]
    obtain ⟨w, hw⟩ := Option.isSome_iff_exists.mp this
    rw [hw]
    rfl

theorem foldl_queuePut_length : ∀ (l : List QItem) (init : List QItem),
    (l.foldl queuePut init).length = init.length + l.length
  | [], init => by simp
  | x :: rest, init => by
    rw [List.foldl_cons, foldl_queuePut_length rest (queuePut init x)]
    simp [queuePut]
    omega

theorem runSteps_eq_takeWhile : ∀ (l : List TeardownStep) (fails : TeardownStep → Bool),
    runSteps fails l =
      l.takeWhile (fun s => !fails s) ++ (l.dropWhile (fun s => !fails s)).take 1
  | [], _ => rfl
  | s :: rest, fails => by
    by_cases hf : fails s = true
    · simp [runSteps, hf, List.takeWhile_cons, List.dropWhile_cons]
    · rw [Bool.not_eq_true] at hf
      simp [runSteps, hf, List.takeWhile_cons, List.dropWhile_cons,
        runSteps_eq_takeWhile rest fails]

/-! ### Claim theorems -/

/-- C1 counterexample: for the fragments `["Hi", " "]` (trailing
whitespace-only fragment) the framer emits no frame with status = Last at
all — the single emitted frame has status 0 — so "exactly one produced
frame carries status = Last" fails as stated. -/
theorem C1_counterexample :
    ¬(send_text_stream sampleParams ["Hi", " "]).1.countP (fun f => f.status == 2) = 1 := by
  decide

/-- C1 (amended): the Text Framer assigns sequence numbers `0..n-1` densely
and in input order to exactly the non-empty trimmed fragments, skipping
empty/whitespace-only fragments without consuming a sequence number or
sending a frame; and exactly one produced frame carries status = Last
provided the final fragment of the sequence is non-blank after trimming
(the raw-iterator lookahead strips the Last status from the stream
whenever trailing fragments are whitespace-only). -/
theorem C1_dense_sequencing (p : TtsParams) (frags : List String) :
    (send_text_stream p frags).1.map OutFrame.seq =
      List.range (nonEmptyTrims frags).length ∧
    (send_text_stream p frags).1.map OutFrame.text = nonEmptyTrims frags ∧
    (lastNonBlank frags = true →
      (send_text_stream p frags).1.countP (fun f => f.status == 2) = 1) := by
  refine ⟨?_, sendLoop_texts frags p true 0 "",
    fun hl => sendLoop_one_last frags p true 0 "" hl⟩
  rw [List.range_eq_range']
  exact sendLoop_seqs frags p true 0 ""

theorem C1_dense_sequencing_witness :
    lastNonBlank ["Hello", " ", "world"] = true ∧
    (send_text_stream sampleParams ["Hello", " ", "world"]).1.countP
      (fun f => f.status == 2) = 1 :=
  ⟨by decide, (C1_dense_sequencing sampleParams ["Hello", " ", "world"]).2.2 (by decide)⟩

/-- C2 counterexample: the connection closes on the second `ws.send`
(mid-turn, before any EndOfStream), yet `handle_ai_turn` confirms the
session with the success flag `true`, not `false`: `send_text_stream`
catches `ConnectionClosed` and returns normally. -/
theorem C2_counterexample :
    (sendLoopConn (some 1) 0 "" ["Hello,", " world"]).2 = true ∧
    handle_ai_turn true ["Hello,", " world"] (some 1) = (true, "Hello,") := by
  decide

/-- C2 (amended): if the duplex connection closes unexpectedly mid-turn
with no prior EndOfStream, the audio pipeline still receives a synthesized
EndOfStream sentinel and the playback consumer terminates; but the session
is confirmed as successful (flag `true`), not failed — the mid-send
`ConnectionClosed` is caught inside `send_text_stream`, so no exception
reaches `handle_ai_turn`'s failure branch; the failed flag is passed only
when an exception escapes the turn body (e.g. a connect failure). -/
theorem C2_connection_loss (msgs : List RawMsg) (frags : List String) (k : Nat)
    (hclean : ∀ r ∈ msgs, cleanMsg r = true) :
    (receive_audio msgs).getLast? = some QItem.sentinel ∧
    (play_audio_sync (receive_audio msgs)).isSome = true ∧
    (handle_ai_turn true frags (some k)).1 = true ∧
    (∀ (frags2 : List String) (failAt : Option Nat),
      handle_ai_turn false frags2 failAt = (false, "")) := by
  obtain ⟨chunks, hchunks⟩ := receive_audio_clean msgs hclean
  refine ⟨?_, ?_, rfl, fun _ _ => rfl⟩
  · rw [hchunks, List.getLast?_concat]
  · exact play_isSome_of_mem _ (by simp [hchunks])

theorem C2_connection_loss_witness :
    (∀ r ∈ [RawMsg.json audioAQIMsg], cleanMsg r = true) ∧
    ((receive_audio [RawMsg.json audioAQIMsg]).getLast? = some QItem.sentinel ∧
      (play_audio_sync (receive_audio [RawMsg.json audioAQIMsg])).isSome = true ∧
      (handle_ai_turn true ["Hello"] (some 0)).1 = true ∧
      (∀ (frags2 : List String) (failAt : Option Nat),
        handle_ai_turn false frags2 failAt = (false, ""))) :=
  ⟨by decide, C2_connection_loss [RawMsg.json audioAQIMsg] ["Hello"] 0 (by decide)⟩

/-- C3 counterexample: after a non-JSON message the loop reads nothing
further — the subsequent audio and end-of-stream messages produce no queue
items at all — whereas without the non-JSON prefix they produce the chunk
and the sentinel. -/
theorem C3_counterexample :
    receive_audio
      [RawMsg.nonJson "plain text", RawMsg.json audioAQIMsg, RawMsg.json finishMsg] = [] ∧
    receive_audio [RawMsg.json audioAQIMsg, RawMsg.json finishMsg] =
      [QItem.audio [1, 2], QItem.sentinel] := by
  decide

/-- C3 (amended): a non-JSON inbound message is logged and terminates the
receive loop: the `except json.JSONDecodeError` handler sits outside the
`while`, so subsequent inbound messages are never read, nothing is pushed
to the pipeline — in particular no EndOfStream sentinel, so the playback
consumer is never told to stop. -/
theorem C3_nonjson_stops_loop (raw : String) (rest : List RawMsg) :
    receive_audio (RawMsg.nonJson raw :: rest) = [] ∧
    play_audio_sync (receive_audio (RawMsg.nonJson raw :: rest)) = none :=
  ⟨rfl, rfl⟩

/-- C4 counterexample: there is no bound on the number of buffered chunks —
for every candidate capacity `c` the producer can push `c + 1` chunks
without the consumer draining and they are all buffered. -/
theorem C4_counterexample :
    ¬∃ c : Nat, 0 < c ∧ ∀ n : Nat,
      ((List.replicate n (QItem.audio [1])).foldl queuePut []).length ≤ c := by
  rintro ⟨c, hc, h⟩
  have hcap := h (c + 1)
  rw [foldl_queuePut_length] at hcap
  simp only [List.length_nil, List.length_replicate] at hcap
  omega

/-- C4 (amended): the audio hand-off queue is created as `asyncio.Queue()`
with default `maxsize = 0`, i.e. unbounded: it is never full, a push never
suspends and never drops (it appends the chunk in FIFO position), and the
number of buffered chunks is not bounded by any capacity. -/
theorem C4_queue_unbounded (q : List QItem) (x : QItem) :
    queueFull q = false ∧ queuePut q x = q ++ [x] ∧
    (queuePut q x).length = q.length + 1 := by
  refine ⟨?_, rfl, by simp [queuePut]⟩
  simp [queueFull, audioQueueMaxsize]

/-- C5 counterexample: if saving the audio raises, teardown stops there —
the stream stop/close and the PyAudio terminate steps never run, so a
failure in one step does prevent the remaining teardown steps. -/
theorem C5_counterexample :
    TeardownStep.saveAudio ∈ closeRun true (fun s => s == TeardownStep.saveAudio) ∧
    TeardownStep.stopStream ∉ closeRun true (fun s => s == TeardownStep.saveAudio) ∧
    TeardownStep.terminateAudio ∉ closeRun true (fun s => s == TeardownStep.saveAudio) := by
  decide

/-- C5 (amended): `close()` runs its teardown steps strictly in order with
no per-step exception handling: the attempted steps are exactly the
longest prefix of successful steps plus the first failing one, so an early
failure prevents every later step; all steps run exactly when none fails.
(The caller does invoke `close()` on every exit path via `finally`, but
`close()` itself is short-circuiting, not best-effort.) -/
theorem C5_teardown_short_circuit (hasWs : Bool) (fails : TeardownStep → Bool) :
    closeRun hasWs fails =
      (closeStepList hasWs).takeWhile (fun s => !fails s) ++
        ((closeStepList hasWs).dropWhile (fun s => !fails s)).take 1 ∧
    ((∀ s, fails s = false) → closeRun hasWs fails = closeStepList hasWs) := by
  constructor
  · exact runSteps_eq_takeWhile (closeStepList hasWs) fails
  · intro hok
    have hall : ∀ l : List TeardownStep, runSteps fails l = l := by
      intro l
      induction l with
      | nil => rfl
      | cons s rest ih => simp [runSteps, hok s, ih]
    exact hall _

theorem C5_teardown_short_circuit_witness :
    (∀ s : TeardownStep, (fun _ : TeardownStep => false) s = false) ∧
    closeRun true (fun _ => false) = closeStepList true :=
  ⟨fun _ => rfl, (C5_teardown_short_circuit true (fun _ => false)).2 (fun _ => rfl)⟩

/-- C6: inbound routing — a message with a nonzero (or absent) header code
is skipped without producing a chunk and without stopping the loop; a
code-0 message whose audio payload decodes and whose header status is 2
pushes the audio chunk first and the EndOfStream sentinel second; and for
the scenario (code=5 message, audio message, status=2 message) the pipeline
receives exactly one AudioChunk followed by EndOfStream. -/
theorem C6_inbound_routing :
    (∀ (m : InMsg) (rest : List RawMsg), m.headerCode ≠ some 0 →
      receive_audio (RawMsg.json m :: rest) = receive_audio rest) ∧
    (∀ (m : InMsg) (rest : List RawMsg) (s : String) (bytes : List Nat),
      m.headerCode = some 0 → m.headerStatus = some 2 → m.audioB64 = some s →
      s ≠ "" → b64DecodeStr s = some bytes →
      receive_audio (RawMsg.json m :: rest) = [QItem.audio bytes, QItem.sentinel]) ∧
    receive_audio [RawMsg.json serverErr5Msg, RawMsg.json audioAQIMsg, RawMsg.json finishMsg]
      = [QItem.audio [1, 2], QItem.sentinel] := by
  refine ⟨?_, ?_, by decide⟩
  · intro m rest hm
    rw [receive_audio, if_pos hm]
  · intro m rest s bytes hcode hst haud hs hdec
    rw [receive_audio, if_neg (by simp [hcode])]
    simp only [haud]
    rw [if_neg hs]
    simp only [hdec]
    rw [if_pos hst]

theorem C6_inbound_routing_witness :
    receive_audio [RawMsg.json serverErr5Msg] = receive_audio [] ∧
    receive_audio [RawMsg.json audioFinishMsg] = [QItem.audio [1, 2], QItem.sentinel] :=
  ⟨C6_inbound_routing.1 serverErr5Msg [] (by decide),
   C6_inbound_routing.2.1 audioFinishMsg [] "AQI=" [1, 2] (by decide) (by decide)
     (by decide) (by decide) (by decide)⟩

/-- C7: the one-time parameter block is attached to exactly the first
emitted frame of a turn — the frame parameters of a turn are `some p`
followed by `none` for every later frame — and for the fragments
`["  ", "Hi"]` the single emitted frame has seq 0, status 2 (Last) and the
parameter block attached. -/
theorem C7_parameter_first_frame :
    (∀ (p : TtsParams) (frags : List String),
      (send_text_stream p frags).1.map OutFrame.parameter =
        paramsList (send_text_stream p frags).1.length p) ∧
    (∀ p : TtsParams, send_text_stream p ["  ", "Hi"] =
      ([{ status := 2, seq := 0, text := "Hi", textB64 := [83, 71, 107, 61],
          parameter := some p }], "Hi")) :=
  ⟨fun p frags => sendLoop_params_first_map frags p 0 "", fun p => rfl⟩

/-- C8: round-trip — encoding a fragment for the wire (UTF-8 encode, then
base64) and decoding the resulting text payload (base64 decode, then UTF-8
decode) yields the original fragment's code points. -/
theorem C8_fragment_roundtrip (s : String) :
    decodeTextPayload (encodeFragment s) = some (s.data.map Char.toNat) := by
  have hvalid : ∀ u ∈ s.data.map Char.toNat, ValidCp u := by
    intro u hu
    simp only [List.mem_map] at hu
    obtain ⟨c, _, rfl⟩ := hu
    exact char_validCp c
  have hlt : ∀ u ∈ s.data.map Char.toNat, u < 0x110000 := by
    intro u hu
    rcases hvalid u hu with h | h
    · omega
    · omega
  rw [decodeTextPayload, encodeFragment]
  rw [b64_roundtrip _ (utf8Encode_bytes_lt _ hlt)]
  exact utf8_roundtrip _ hvalid

/-- C9: the assistant text returned by `send_text_stream` (and recorded in
conversation history) is the concatenation, in input order, of the trimmed
non-empty fragments: whitespace at fragment boundaries is absent. -/
theorem C9_full_text_is_trimmed_concat (p : TtsParams) (frags : List String) :
    (send_text_stream p frags).2 = concatAll (nonEmptyTrims frags) := by
  show (sendLoop p true 0 "" frags).2 = concatAll (nonEmptyTrims frags)
  rw [sendLoop_fullText frags p true 0 "", String.empty_append]

/-- C10: an inbound JSON message whose header lacks a `code` field is
skipped exactly like a server-error message — its audio payload and its
`status = 2` are ignored — and, in general, any message whose header code
is not present-and-zero leaves the queue exactly as if the message had not
arrived. -/
theorem C10_missing_code_skipped :
    (∀ (hd : Header) (pl : Option Payload) (rest : List RawMsg), hd.code = none →
      receive_audio (RawMsg.json { header := some hd, payload := pl } :: rest) =
        receive_audio rest) ∧
    (∀ (m : InMsg) (rest : List RawMsg), m.headerCode ≠ some 0 →
      receive_audio (RawMsg.json m :: rest) = receive_audio rest) := by
  constructor
  · intro hd pl rest hcode
    rw [receive_audio, if_pos (by simp [InMsg.headerCode, hcode])]
  · intro m rest hm
    rw [receive_audio, if_pos hm]

theorem C10_missing_code_skipped_witness :
    Header.code { code := none, message := none, status := some 2 } = none ∧
    receive_audio [RawMsg.json noCodeMsg] = receive_audio [] :=
  ⟨rfl, C10_missing_code_skipped.1 { code := none, message := none, status := some 2 }
    (some { audio := some { audio := some "AQI=" } }) [] rfl⟩

end WsTts
